import Mathlib

/-!
# replication-mode-detector: the label controller

A shallow embedding of `pkg/controller/controller.go` and of the contracts of
the library primitives it calls (label selectors, the rate-limited work queue,
`wait.PollUntil`), followed by the properties established about them.

Conventions.
* Go maps are association lists; `range` over a map is a traversal of the list
  in an arbitrary order, so every statement about a `range` loop quantifies
  over all lists.
* Time is discrete (one unit is one second).  A stop channel is the instant at
  which it is closed, `none` when it is never closed.
* Side effects on collaborators are recorded as a list of `Event`s.
-/

namespace ReplicationModeDetector

/-! ## Label sets and selectors (`k8s.io/apimachinery/pkg/labels`) -/

namespace labels

/-- A label set (`labels.Set`, a `map[string]string`): an association list in
which the first binding of a key is the one that counts. -/
abbrev Set := List (String × String)

/-- Go `ls.Has(key)`. -/
def Set.Has (ls : labels.Set) (key : String) : Bool :=
  (ls.lookup key).isSome

/-- Go `ls.Get(key)`: the value bound to `key`, the empty string when absent. -/
def Set.Get (ls : labels.Set) (key : String) : String :=
  (ls.lookup key).getD ""

/-- Assignment `m[key] = value` on a Go map: an existing binding is replaced,
otherwise a new one is added. -/
def Set.set (m : labels.Set) (key value : String) : labels.Set :=
  if m.any (fun p => p.1 == key) then
    m.map (fun p => if p.1 == key then (key, value) else p)
  else
    m ++ [(key, value)]

/-- A Go map literal `map[string]string{k1: v1, ...}`. -/
def mapLiteral (entries : List (String × String)) : labels.Set :=
  entries.foldl (fun m e => m.set e.1 e.2) []

/-- The label set carries the pair `key = value`. -/
def Set.carries (ls : labels.Set) (key value : String) : Prop :=
  ls.lookup key = some value

instance (ls : labels.Set) (key value : String) : Decidable (ls.carries key value) := by
  unfold Set.carries; infer_instance

/-- Modelled from the spec: one required pair of a selector (an equality
requirement of the vendored labels package): the label `key` must be present
with exactly the value `value`. -/
structure Requirement where
  key : String
  value : String
  deriving DecidableEq, Repr

/-- Modelled from the spec: the label selector type of the vendored
`k8s.io/apimachinery/pkg/labels` package (not part of the controller source).
"An immutable, order-independent set of required label key/value pairs." -/
abbrev Selector := List Requirement

/-- Modelled from the spec: `Requirement.Matches` of the vendored labels
package for an equality requirement: the key is present and its value is the
required one. -/
def Requirement.Matches (r : Requirement) (ls : labels.Set) : Bool :=
  ls.Has r.key && (ls.Get r.key == r.value)

/-- Modelled from the spec: `Selector.Matches` of the vendored labels package.
"A pod matches iff it carries every pair as a label." -/
def Selector.Matches (s : Selector) (ls : labels.Set) : Bool :=
  s.all (fun r => r.Matches ls)

/-- Lexicographic order on sequences of character codes. -/
def codesLess : List Nat → List Nat → Bool
  | [], [] => false
  | [], _ :: _ => true
  | _ :: _, [] => false
  | a :: as, b :: bs =>
    if a < b then true else if b < a then false else codesLess as bs

/-- Go `a < b` on strings (code-point order, which is the byte order of the
UTF-8 encodings). -/
def keyLess (a b : String) : Bool :=
  codesLess (a.data.map Char.toNat) (b.data.map Char.toNat)

/-- Modelled from the spec: `labels.SelectorFromSet` of the vendored labels
package: one required pair per entry of the given set (the empty set gives the
selector that matches everything), listed in ascending order of the keys so
that the selector does not depend on the order in which the map is
traversed. -/
def SelectorFromSet (ls : labels.Set) : Selector :=
  (ls.map (fun p => ({ key := p.1, value := p.2 } : Requirement))).insertionSort
    (fun a b => keyLess b.key a.key = false)

/-- Modelled from the spec: `Selector.String` of the vendored labels package,
the textual form `k1=v1,k2=v2,...` that goes into list options. -/
def Selector.String (s : Selector) : String :=
  ",".intercalate (s.map (fun r => r.key ++ "=" ++ r.value))

end labels

/-! ## Constants and environment the constructor reads -/

/-- The label-key constants of `kmodules.xyz/client-go/meta` and the API group
name of `kubedb.dev/apimachinery/apis/kubedb` used by the constructor.  Their
declarations are not part of the controller source, so they are parameters. -/
structure Consts where
  NameLabelKey : String
  InstanceLabelKey : String
  ManagedByLabelKey : String
  GroupName : String
  deriving DecidableEq, Repr

/-- The three label keys are pairwise different (Go rejects a map literal with
duplicate constant keys at compile time). -/
def Consts.distinctKeys (k : Consts) : Prop :=
  k.NameLabelKey ≠ k.InstanceLabelKey ∧
  k.NameLabelKey ≠ k.ManagedByLabelKey ∧
  k.InstanceLabelKey ≠ k.ManagedByLabelKey

instance (k : Consts) : Decidable k.distinctKeys := by
  unfold Consts.distinctKeys; infer_instance

/-- The values these constants have upstream. -/
def upstreamConsts : Consts :=
  { NameLabelKey := "app.kubernetes.io/name"
    InstanceLabelKey := "app.kubernetes.io/instance"
    ManagedByLabelKey := "app.kubernetes.io/managed-by"
    GroupName := "kubedb.com" }

/-- What the constructor reads from the execution environment:
`os.Getenv("POD_NAME")` and `meta.Namespace()`. -/
structure Environ where
  POD_NAME : String
  Namespace : String
  deriving DecidableEq, Repr

/-- The fields of `metav1.ListOptions` a list/watch tweak can touch. -/
structure ListOptions where
  LabelSelector : String
  FieldSelector : String
  ResourceVersion : String
  deriving DecidableEq, Repr

/-- An opaque reference to an external collaborator (informer factory, REST
configuration, clients). -/
abbrev Handle := Nat

/-! ## The controller -/

/-- Go `type Controller struct`.  `tweakListOptions` is a nilable function
value.  The work queue, informer and lister fields are filled in by other code
and are threaded separately as explicit state. -/
structure Controller where
  kubeInformerFactory : Handle
  clientConfig : Handle
  kubeClient : Handle
  dbClient : Handle
  maxNumRequeues : Int
  numThreads : Int
  watchNamespace : String
  dbName : String
  podName : String
  dbFQN : String
  namespace_ : String
  selector : labels.Selector
  tweakListOptions : Option (ListOptions → ListOptions)

/-- Go `NewLabelController`.  Fields absent from the struct literal keep their
zero value, so `tweakListOptions` is nil. -/
def NewLabelController (k : Consts) (env : Environ)
    (kubeInformerFactory clientConfig kubeClient dbClient : Handle)
    (maxNumRequeues numThreads : Int)
    (watchNamespace dbName dbFQN : String) : Controller :=
  { kubeInformerFactory := kubeInformerFactory
    clientConfig := clientConfig
    kubeClient := kubeClient
    dbClient := dbClient
    maxNumRequeues := maxNumRequeues
    numThreads := numThreads
    selector := labels.SelectorFromSet (labels.mapLiteral
      [ (k.NameLabelKey, dbFQN),
        (k.InstanceLabelKey, dbName),
        (k.ManagedByLabelKey, k.GroupName) ])
    watchNamespace := watchNamespace
    dbName := dbName
    dbFQN := dbFQN
    podName := env.POD_NAME
    namespace_ := env.Namespace
    tweakListOptions := none }

/-- The arguments `initInformer` hands to `coreinformers.NewFilteredPodInformer`
(the client is supplied by the factory). -/
structure PodInformerConfig where
  namespace_ : String
  resyncPeriod : Nat
  indexers : List String
  tweakListOptions : Option (ListOptions → ListOptions)

/-- Go `(c *Controller) initInformer`: the constructor function registered with
the factory builds a filtered pod informer from `c.watchNamespace`, the
namespace indexer and `c.tweakListOptions`. -/
def Controller.initInformer (c : Controller) (resyncPeriod : Nat) : PodInformerConfig :=
  { namespace_ := c.watchNamespace
    resyncPeriod := resyncPeriod
    indexers := ["namespace"]
    tweakListOptions := c.tweakListOptions }

/-- The list/watch options a filtered informer sends: the hook is applied to
the options when it is not nil, otherwise they go out unchanged. -/
def PodInformerConfig.listOptions (cfg : PodInformerConfig) (options : ListOptions) :
    ListOptions :=
  match cfg.tweakListOptions with
  | none => options
  | some tweak => tweak options

/-! ## Effects, time and outcomes -/

/-- Calls on collaborators, in the order they are made. -/
inductive Event
  /-- Call `c.kubeInformerFactory.Start(stopCh)`. -/
  | informerFactoryStart
  /-- Call `c.kubeInformerFactory.WaitForCacheSync(stopCh)`. -/
  | waitForCacheSync
  /-- Call `klog.Fatalf`, with the rendered message. -/
  | fatalf (msg : String)
  /-- Call `c.podQueue.Run(stopCh)`. -/
  | podQueueRun
  /-- Statement `go c.requeuePeriodically(stopCh)`. -/
  | goRequeuePeriodically
  /-- Statement `go c.StartAndRunController(stopCh)`. -/
  | goStartAndRunController
  /-- Receive `<-stopCh`. -/
  | recvStop
  /-- The deferred `utilruntime.HandleCrash()` running at function return. -/
  | handleCrash
  /-- Call `c.podQueue.GetQueue().Add(key)`. -/
  | queueAdd (key : String)
  /-- Call `klog.Warningf`, with the rendered message. -/
  | warningf (msg : String)
  deriving DecidableEq, Repr

/-- A stop channel: the instant at which it is closed, `none` if never. -/
abbrev StopCh := Option Nat

/-- Whether the stop channel is closed at instant `now`. -/
def StopCh.closedAt (stopCh : StopCh) (now : Nat) : Bool :=
  match stopCh with
  | none => false
  | some closeTime => decide (closeTime ≤ now)

/-- Go `<-stopCh` started at `now`: the instant the receive completes, `none`
when it blocks forever. -/
def StopCh.recv (stopCh : StopCh) (now : Nat) : Option Nat :=
  match stopCh with
  | none => none
  | some closeTime => some (max now closeTime)

/-- How a call ends. -/
inductive Outcome
  /-- The function returned to its caller at the given instant. -/
  | returned (t : Nat)
  /-- The function never returns. -/
  | blocked
  /-- The process was terminated at the given instant, before the function returned. -/
  | exited (t : Nat)
  deriving DecidableEq, Repr

/-- The observable run of a function: the calls it made and how it ended. -/
structure Execution where
  events : List Event
  outcome : Outcome
  deriving DecidableEq, Repr

/-- What `WaitForCacheSync` gives back: how long it blocked and the
`map[reflect.Type]bool`, listed in the order the `range` loop visits it. -/
structure CacheSync where
  elapsed : Nat
  visited : List (String × Bool)
  deriving DecidableEq, Repr

/-- The surroundings of one start-up: the stop channel, the behaviour of
`WaitForCacheSync` (`none`: it never returns) and whether `klog.Fatalf` hands
control back instead of terminating the process. -/
structure World where
  stopCh : StopCh
  cacheSync : Option CacheSync
  fatalReturns : Bool
  deriving DecidableEq, Repr

/-- How the `range` loop over the sync result ends. -/
inductive LoopExit
  /-- Every entry was visited; execution continues after the loop. -/
  | fellThrough
  /-- The `return` after `klog.Fatalf` was executed. -/
  | returnStmt
  /-- The call of `klog.Fatalf` terminated the process. -/
  | processExit
  deriving DecidableEq, Repr

/-- The loop `for t, v := range ... { if !v { klog.Fatalf(...); return } }`. -/
def rangeCacheSync (fatalReturns : Bool) : List (String × Bool) → List Event × LoopExit
  | [] => ([], LoopExit.fellThrough)
  | (t, v) :: rest =>
    if !v then
      ([Event.fatalf (t ++ " timed out waiting for caches to sync")],
        if fatalReturns then LoopExit.returnStmt else LoopExit.processExit)
    else
      rangeCacheSync fatalReturns rest

/-- Go `(c *Controller) Run`: runs the queue worker. -/
def Controller.Run (_c : Controller) : List Event :=
  [Event.podQueueRun]

/-- Go `(c *Controller) StartAndRunController`, entered at instant `now`. -/
def Controller.StartAndRunController (c : Controller) (w : World) (now : Nat) : Execution :=
  let started := [Event.informerFactoryStart, Event.waitForCacheSync]
  match w.cacheSync with
  | none => { events := started, outcome := Outcome.blocked }
  | some sync =>
    let afterSync := now + sync.elapsed
    match rangeCacheSync w.fatalReturns sync.visited with
    | (logged, LoopExit.processExit) =>
      { events := started ++ logged, outcome := Outcome.exited afterSync }
    | (logged, LoopExit.returnStmt) =>
      { events := started ++ logged ++ [Event.handleCrash], outcome := Outcome.returned afterSync }
    | (logged, LoopExit.fellThrough) =>
      let running := started ++ logged ++ c.Run ++ [Event.goRequeuePeriodically, Event.recvStop]
      match w.stopCh.recv afterSync with
      | none => { events := running, outcome := Outcome.blocked }
      | some t => { events := running ++ [Event.handleCrash], outcome := Outcome.returned t }

/-- The outcome of a goroutine whose own control flow ends as `own` while
another goroutine of the process ends as `other`: a process exit elsewhere cuts
it short unless it had returned by then. -/
def Outcome.besides (own other : Outcome) : Outcome :=
  match other with
  | Outcome.exited e =>
    match own with
    | Outcome.returned t => if t ≤ e then Outcome.returned t else Outcome.exited e
    | _ => Outcome.exited e
  | _ => own

/-- Go `(c *Controller) RunLabelController`, entered at instant `now`: the run
of the caller and the run of the activity it launched. -/
def Controller.RunLabelController (c : Controller) (w : World) (now : Nat) :
    Execution × Execution :=
  let background := c.StartAndRunController w now
  let events := [Event.goStartAndRunController, Event.recvStop]
  match w.stopCh.recv now with
  | none =>
    ({ events := events, outcome := Outcome.blocked.besides background.outcome }, background)
  | some t =>
    ({ events := events, outcome := (Outcome.returned t).besides background.outcome },
      background)

/-- All informers of a sync result report synced. -/
def CacheSync.allSynced (sync : CacheSync) : Bool :=
  sync.visited.all (fun p => p.2)

/-! ## The work queue (`k8s.io/client-go/util/workqueue`) -/

namespace workqueue

/-- Modelled from the spec: the state of the vendored work queue behind
`podQueue.GetQueue()` (not part of the controller source).  "A mapping from
Item Identifier to currently processing / pending / absent"; "a new enqueue of
an identifier already processing is recorded but deferred"; after shutdown the
queue "stops accepting new admissions". -/
structure Queue where
  pending : List String
  processing : List String
  deferred : List String
  shutDown : Bool
  deriving DecidableEq, Repr

/-- The queue a worker starts with. -/
def Queue.empty : Queue :=
  { pending := [], processing := [], deferred := [], shutDown := false }

/-- Modelled from the spec: `Add` of the vendored work queue.  "Idempotent
enqueue.  If the identifier is already pending, this is a no-op.  If it is
currently processing, the item is marked dirty and re-enqueued immediately
after the in-flight processing completes."  A queue that was shut down accepts
nothing. -/
def Queue.Add (q : Queue) (item : String) : Queue :=
  if q.shutDown then q
  else if item ∈ q.pending then q
  else if item ∈ q.processing then
    if item ∈ q.deferred then q else { q with deferred := q.deferred ++ [item] }
  else { q with pending := q.pending ++ [item] }

/-- Modelled from the spec: `Get` of the vendored work queue, the take half of
the "standard take/acknowledge pair": the oldest pending identifier becomes
processing. -/
def Queue.Get (q : Queue) : Queue × Option String :=
  match q.pending with
  | [] => (q, none)
  | item :: rest =>
    ({ q with pending := rest, processing := q.processing ++ [item] }, some item)

/-- Modelled from the spec: `Done` of the vendored work queue, the acknowledge
half: the identifier stops processing and, when an enqueue was deferred
meanwhile, becomes pending again. -/
def Queue.Done (q : Queue) (item : String) : Queue :=
  if item ∈ q.deferred then
    { q with processing := q.processing.erase item
             deferred := q.deferred.erase item
             pending := q.pending ++ [item] }
  else
    { q with processing := q.processing.erase item }

/-- Modelled from the spec: `ShutDown` of the vendored work queue. -/
def Queue.ShutDown (q : Queue) : Queue :=
  { q with shutDown := true }

/-- The at-most-one-pending/processing invariant: no identifier is listed
twice, none is both pending and processing, and only processing identifiers
carry a deferred enqueue. -/
def Queue.WellFormed (q : Queue) : Prop :=
  q.pending.Nodup ∧ q.processing.Nodup ∧ q.deferred.Nodup ∧
  (∀ item ∈ q.pending, item ∉ q.processing) ∧
  (∀ item ∈ q.deferred, item ∈ q.processing)

instance (q : Queue) : Decidable q.WellFormed := by
  unfold Queue.WellFormed; infer_instance

end workqueue

/-! ## Polling (`k8s.io/apimachinery/pkg/util/wait`) -/

namespace wait

/-- A Go `error` value, by its message; `Option GoError` is a nilable error. -/
abbrev GoError := String

/-- The package's `ErrWaitTimeout`, the non-nil error `wait.PollUntil` returns
when the stop channel ends the poll. -/
def ErrWaitTimeout : GoError := "timed out waiting for the condition"

/-- Where a poll loop stands. -/
inductive PollStatus
  /-- Still waiting for the next tick. -/
  | waiting
  /-- The poll returned at the given instant with the given error. -/
  | ended (t : Nat) (err : Option GoError)
  deriving DecidableEq, Repr

/-- Modelled from the spec: one instant of the loop inside `wait.PollUntil`
(vendored wait package), for a poll started at `start`.  A tick is due every
`interval` after the start, never at the start itself (`PollUntil` waits one
interval before the first run of the condition).  A closed stop channel ends
the poll with `ErrWaitTimeout`; when a tick and the close fall on the same
instant, `tickWinsTie` says which one the `select` serves first.  A served
tick runs the condition: an error or `done` ends the poll, otherwise it goes
on.  Ticks are never late and never dropped. -/
def pollInstant {σ : Type} (interval : Nat) (condition : σ → σ × Bool × Option GoError)
    (stopCh : StopCh) (tickWinsTie : Bool) (start now : Nat) (s : σ) : σ × PollStatus :=
  let closed := stopCh.closedAt now
  let tickDue := decide (start < now) && ((now - start) % interval == 0)
  if closed && !(tickDue && tickWinsTie) then
    (s, PollStatus.ended now (some ErrWaitTimeout))
  else if tickDue then
    match condition s with
    | (s1, _, some err) => (s1, PollStatus.ended now (some err))
    | (s1, true, none) => (s1, PollStatus.ended now none)
    | (s1, false, none) =>
      if closed then (s1, PollStatus.ended now (some ErrWaitTimeout))
      else (s1, PollStatus.waiting)
  else
    (s, PollStatus.waiting)

/-- Modelled from the spec: `wait.PollUntil(interval, condition, stopCh)` of
the vendored wait package (not part of the controller source), observed
`elapsed` time units after it was called at `start`.  "Single state waiting,
transitioning to fire every fixed interval until the stop signal is observed,
at which point it terminates."  The state and status at an instant follow from
those at the previous instant. -/
def PollUntil {σ : Type} (interval : Nat) (condition : σ → σ × Bool × Option GoError)
    (stopCh : StopCh) (tickWinsTie : Bool) (start : Nat) : Nat → σ → σ × PollStatus
  | 0, s => pollInstant interval condition stopCh tickWinsTie start start s
  | elapsed + 1, s =>
    match PollUntil interval condition stopCh tickWinsTie start elapsed s with
    | (s1, PollStatus.waiting) =>
      pollInstant interval condition stopCh tickWinsTie start (start + elapsed + 1) s1
    | finished => finished

end wait

/-! ## The heartbeat -/

/-- The mutable state the heartbeat touches: the pod queue and the log of
calls made so far. -/
structure Heap where
  podQueue : workqueue.Queue
  log : List Event
  deriving DecidableEq, Repr

/-- The key the heartbeat enqueues: `fmt.Sprintf("%s/%s", c.namespace, c.podName)`. -/
def Controller.requeueKey (c : Controller) : String :=
  c.namespace_ ++ "/" ++ c.podName

/-- The condition closure of `requeuePeriodically`: add the key to the pod
queue, then `return false, nil`. -/
def Controller.requeueCondition (c : Controller) (h : Heap) :
    Heap × Bool × Option wait.GoError :=
  ({ podQueue := h.podQueue.Add c.requeueKey
     log := h.log ++ [Event.queueAdd c.requeueKey] }, false, none)

/-- The fixed poll interval `10*time.Second`, in seconds. -/
def requeueInterval : Nat := 10

/-- Go `(c *Controller) requeuePeriodically`, observed `elapsed` seconds after
it was entered at `start`: the heap and, once the function has returned, the
instant of the return. -/
def Controller.requeuePeriodically (c : Controller) (stopCh : StopCh) (tickWinsTie : Bool)
    (start elapsed : Nat) (h : Heap) : Heap × Option Nat :=
  match wait.PollUntil requeueInterval c.requeueCondition stopCh tickWinsTie start elapsed h with
  | (h1, wait.PollStatus.waiting) => (h1, none)
  | (h1, wait.PollStatus.ended t none) => (h1, some t)
  | (h1, wait.PollStatus.ended t (some err)) =>
    ({ h1 with log := h1.log ++ [Event.warningf ("failed to requeue pod " ++ c.namespace_
        ++ "/" ++ c.podName ++ ". Reason: " ++ err)] }, some t)

/-- The heap after `n` fires of the heartbeat. -/
def Controller.fires (c : Controller) : Nat → Heap → Heap
  | 0, h => h
  | n + 1, h => (c.requeueCondition (c.fires n h)).1

/-- One call on the pod queue while the controller runs: a fire of the
heartbeat, an enqueue by another producer, a worker taking the next identifier,
a worker acknowledging one, or the shutdown of the queue. -/
inductive QueueCall
  /-- One fire of the heartbeat: a run of the poll condition. -/
  | heartbeat
  /-- Another producer calls `Add(item)`. -/
  | add (item : String)
  /-- A worker calls `Get()`. -/
  | get
  /-- A worker calls `Done(item)`. -/
  | done (item : String)
  /-- The queue is shut down. -/
  | shutDown
  deriving DecidableEq, Repr

/-- The effect of one call on the heap, and the identifier it hands to a
worker, if any. -/
def Controller.call (c : Controller) (h : Heap) : QueueCall → Heap × Option String
  | QueueCall.heartbeat => ((c.requeueCondition h).1, none)
  | QueueCall.add item => ({ h with podQueue := h.podQueue.Add item }, none)
  | QueueCall.get => ({ h with podQueue := h.podQueue.Get.1 }, h.podQueue.Get.2)
  | QueueCall.done item => ({ h with podQueue := h.podQueue.Done item }, none)
  | QueueCall.shutDown => ({ h with podQueue := h.podQueue.ShutDown }, none)

/-- The effect of a sequence of calls, in the order they take the queue's
lock: the final heap and the identifiers handed to workers on the way. -/
def Controller.calls (c : Controller) : List QueueCall → Heap → Heap × List String
  | [], h => (h, [])
  | call :: rest, h =>
    ((c.calls rest (c.call h call).1).1,
      (c.call h call).2.toList ++ (c.calls rest (c.call h call).1).2)

/-- The heartbeat enqueues recorded in a log. -/
def enqueues (log : List Event) : List String :=
  log.filterMap (fun e => match e with
    | Event.queueAdd key => some key
    | _ => none)

/-- The warnings recorded in a log. -/
def warnings (log : List Event) : List String :=
  log.filterMap (fun e => match e with
    | Event.warningf msg => some msg
    | _ => none)

/-- The fatal log calls recorded in a log. -/
def fatals (log : List Event) : List String :=
  log.filterMap (fun e => match e with
    | Event.fatalf msg => some msg
    | _ => none)

/-- A sample controller, as built for a MySQL database `demo`. -/
def sampleController : Controller :=
  NewLabelController upstreamConsts { POD_NAME := "demo-0", Namespace := "db" }
    1 2 3 4 5 2 "db" "demo" "mysqls.kubedb.com"

/-! ## Properties: the selector -/

theorem mapLiteral_three (k1 k2 k3 v1 v2 v3 : String)
    (h12 : k1 ≠ k2) (h13 : k1 ≠ k3) (h23 : k2 ≠ k3) :
    labels.mapLiteral [(k1, v1), (k2, v2), (k3, v3)] = [(k1, v1), (k2, v2), (k3, v3)] := by
  simp [labels.mapLiteral, labels.Set.set, h12, h13, h23]

theorem requirement_matches_iff (key value : String) (ls : labels.Set) :
    labels.Requirement.Matches { key := key, value := value } ls = true ↔
      ls.carries key value := by
  unfold labels.Requirement.Matches labels.Set.Has labels.Set.Get labels.Set.carries
  cases h : List.lookup key ls <;> simp

theorem all_eq_of_perm {α : Type} (l1 l2 : List α) (p : α → Bool) (h : l1.Perm l2) :
    l1.all p = l2.all p := by
  rw [Bool.eq_iff_iff]
  simp only [List.all_eq_true]
  exact ⟨fun hh x hx => hh x (h.mem_iff.mpr hx), fun hh x hx => hh x (h.mem_iff.mp hx)⟩

/-- Matching does not depend on the order in which the requirements are
listed. -/
theorem selectorFromSet_matches (ls L : labels.Set) :
    (labels.SelectorFromSet ls).Matches L =
      (ls.map (fun p => ({ key := p.1, value := p.2 } : labels.Requirement))).all
        (fun r => r.Matches L) := by
  unfold labels.SelectorFromSet labels.Selector.Matches
  exact all_eq_of_perm _ _ _ (List.perm_insertionSort _ _)

/-- C1: the selector stored by `NewLabelController` matches a label set exactly
when the set carries the three required pairs: name key = dbFQN, instance key =
dbName, managed-by key = the kubedb group name. -/
theorem selector_matches_iff_three_pairs (k : Consts) (hk : k.distinctKeys) (env : Environ)
    (kubeInformerFactory clientConfig kubeClient dbClient : Handle)
    (maxNumRequeues numThreads : Int) (watchNamespace dbName dbFQN : String)
    (L : labels.Set) :
    (NewLabelController k env kubeInformerFactory clientConfig kubeClient dbClient
        maxNumRequeues numThreads watchNamespace dbName dbFQN).selector.Matches L = true ↔
      (L.carries k.NameLabelKey dbFQN ∧ L.carries k.InstanceLabelKey dbName ∧
        L.carries k.ManagedByLabelKey k.GroupName) := by
  obtain ⟨h12, h13, h23⟩ := hk
  simp only [NewLabelController, mapLiteral_three _ _ _ _ _ _ h12 h13 h23,
    selectorFromSet_matches, List.map, List.all_cons, List.all_nil,
    Bool.and_true, Bool.and_eq_true, requirement_matches_iff]

/-- C1 at a concrete input: a pod of database `demo` with an extra label. -/
theorem selector_matches_iff_three_pairs_witness :
    upstreamConsts.distinctKeys ∧
    ((NewLabelController upstreamConsts { POD_NAME := "demo-0", Namespace := "db" } 1 2 3 4 5 2
        "db" "demo" "mysqls.kubedb.com").selector.Matches
        [("role", "primary"), ("app.kubernetes.io/name", "mysqls.kubedb.com"),
         ("app.kubernetes.io/instance", "demo"),
         ("app.kubernetes.io/managed-by", "kubedb.com")] = true ↔
      (labels.Set.carries [("role", "primary"), ("app.kubernetes.io/name", "mysqls.kubedb.com"),
         ("app.kubernetes.io/instance", "demo"),
         ("app.kubernetes.io/managed-by", "kubedb.com")]
          upstreamConsts.NameLabelKey "mysqls.kubedb.com" ∧
       labels.Set.carries [("role", "primary"), ("app.kubernetes.io/name", "mysqls.kubedb.com"),
         ("app.kubernetes.io/instance", "demo"),
         ("app.kubernetes.io/managed-by", "kubedb.com")]
          upstreamConsts.InstanceLabelKey "demo" ∧
       labels.Set.carries [("role", "primary"), ("app.kubernetes.io/name", "mysqls.kubedb.com"),
         ("app.kubernetes.io/instance", "demo"),
         ("app.kubernetes.io/managed-by", "kubedb.com")]
          upstreamConsts.ManagedByLabelKey upstreamConsts.GroupName)) :=
  ⟨by decide,
   selector_matches_iff_three_pairs upstreamConsts (by decide) _ 1 2 3 4 5 2 "db" "demo"
     "mysqls.kubedb.com" _⟩



/-! ## Properties: start-up and shutdown -/

theorem rangeCacheSync_unsynced (fatalReturns : Bool) (visited : List (String × Bool))
    (h : ∃ p ∈ visited, p.2 = false) :
    ∃ t, (t, false) ∈ visited ∧
      rangeCacheSync fatalReturns visited =
        ([Event.fatalf (t ++ " timed out waiting for caches to sync")],
          if fatalReturns then LoopExit.returnStmt else LoopExit.processExit) := by
  induction visited with
  | nil => simp at h
  | cons p rest ih =>
    obtain ⟨t, v⟩ := p
    cases v with
    | false => exact ⟨t, by simp, by simp [rangeCacheSync]⟩
    | true =>
      have h1 : ∃ p ∈ rest, p.2 = false := by
        obtain ⟨q, hq, hq2⟩ := h
        rcases List.mem_cons.mp hq with rfl | hq1
        · simp at hq2
        · exact ⟨q, hq1, hq2⟩
      obtain ⟨u, hu, hr⟩ := ih h1
      exact ⟨u, List.mem_cons_of_mem _ hu, by simpa [rangeCacheSync] using hr⟩

theorem rangeCacheSync_allSynced (fatalReturns : Bool) (visited : List (String × Bool))
    (h : visited.all (fun p => p.2) = true) :
    rangeCacheSync fatalReturns visited = ([], LoopExit.fellThrough) := by
  induction visited with
  | nil => rfl
  | cons p rest ih =>
    obtain ⟨t, v⟩ := p
    simp only [List.all_cons, Bool.and_eq_true] at h
    obtain ⟨hv, hrest⟩ := h
    have hv1 : v = true := hv
    subst hv1
    simpa [rangeCacheSync] using ih hrest

/-- C2: when at least one informer of the sync result is not synced,
`StartAndRunController` stops at the first such informer the loop visits: its
calls are exactly factory start, cache-sync wait and one fatal log (plus the
deferred crash handler when the fatal log returns); it never runs the queue
workers, never launches the heartbeat, never waits on the stop channel, and
ends at once, whatever the visiting order and whether or not the fatal log
call returns. -/
theorem unsynced_cache_aborts_startup (c : Controller) (stopCh : StopCh) (fatalReturns : Bool)
    (sync : CacheSync) (now : Nat) (h : ∃ p ∈ sync.visited, p.2 = false) :
    Event.podQueueRun ∉
      (c.StartAndRunController ⟨stopCh, some sync, fatalReturns⟩ now).events ∧
    Event.goRequeuePeriodically ∉
      (c.StartAndRunController ⟨stopCh, some sync, fatalReturns⟩ now).events ∧
    Event.recvStop ∉
      (c.StartAndRunController ⟨stopCh, some sync, fatalReturns⟩ now).events ∧
    (∃ t, (t, false) ∈ sync.visited ∧
      (c.StartAndRunController ⟨stopCh, some sync, fatalReturns⟩ now).events =
        [Event.informerFactoryStart, Event.waitForCacheSync,
          Event.fatalf (t ++ " timed out waiting for caches to sync")] ++
          (if fatalReturns then [Event.handleCrash] else [])) ∧
    (c.StartAndRunController ⟨stopCh, some sync, fatalReturns⟩ now).outcome =
      (if fatalReturns then Outcome.returned (now + sync.elapsed)
        else Outcome.exited (now + sync.elapsed)) := by
  obtain ⟨t, ht, hr⟩ := rangeCacheSync_unsynced fatalReturns sync.visited h
  cases fatalReturns with
  | false =>
    simp only [Bool.false_eq_true, if_false] at hr
    simp only [Controller.StartAndRunController, hr]
    refine ⟨by simp, by simp, by simp, ⟨t, ht, by simp⟩, by simp⟩
  | true =>
    simp only [if_true] at hr
    simp only [Controller.StartAndRunController, hr]
    refine ⟨by simp, by simp, by simp, ⟨t, ht, by simp⟩, by simp⟩

/-- C2 at a concrete input: the second of three informers did not sync and the
fatal log call returns. -/
theorem unsynced_cache_aborts_startup_witness :
    (∃ p ∈ (CacheSync.mk 3 [("*v1.Pod", true), ("*v1.Secret", false),
        ("*v1.Service", false)]).visited, p.2 = false) ∧
    Event.podQueueRun ∉
      (sampleController.StartAndRunController ⟨some 2, some (CacheSync.mk 3
        [("*v1.Pod", true), ("*v1.Secret", false), ("*v1.Service", false)]), true⟩ 0).events :=
  ⟨⟨("*v1.Secret", false), by simp, rfl⟩,
   (unsynced_cache_aborts_startup sampleController (some 2) true
     (CacheSync.mk 3 [("*v1.Pod", true), ("*v1.Secret", false), ("*v1.Service", false)]) 0
     ⟨("*v1.Secret", false), by simp, rfl⟩).1⟩

/-- C3: when every informer of the sync result is synced (the empty result
included), the calls of `StartAndRunController` are, in this order, factory
start, cache-sync wait, queue-worker start, heartbeat launch, and then the
receive on the stop channel (followed by the deferred crash handler once that
receive completes); each of the four start-up calls occurs exactly once and no
fatal log is written.  While the cache-sync wait has not returned, nothing
after it has been called. -/
theorem synced_startup_order (c : Controller) (stopCh : StopCh) (fatalReturns : Bool)
    (sync : CacheSync) (now : Nat) (h : sync.allSynced = true) :
    (c.StartAndRunController ⟨stopCh, some sync, fatalReturns⟩ now).events =
      [Event.informerFactoryStart, Event.waitForCacheSync, Event.podQueueRun,
        Event.goRequeuePeriodically, Event.recvStop] ++
        (if stopCh.isSome then [Event.handleCrash] else []) ∧
    (c.StartAndRunController ⟨stopCh, some sync, fatalReturns⟩ now).events.count
      Event.informerFactoryStart = 1 ∧
    (c.StartAndRunController ⟨stopCh, some sync, fatalReturns⟩ now).events.count
      Event.waitForCacheSync = 1 ∧
    (c.StartAndRunController ⟨stopCh, some sync, fatalReturns⟩ now).events.count
      Event.podQueueRun = 1 ∧
    (c.StartAndRunController ⟨stopCh, some sync, fatalReturns⟩ now).events.count
      Event.goRequeuePeriodically = 1 ∧
    fatals (c.StartAndRunController ⟨stopCh, some sync, fatalReturns⟩ now).events = [] ∧
    (c.StartAndRunController ⟨stopCh, none, fatalReturns⟩ now).events =
      [Event.informerFactoryStart, Event.waitForCacheSync] := by
  have hr := rangeCacheSync_allSynced fatalReturns sync.visited h
  cases stopCh with
  | none =>
    simp only [Controller.StartAndRunController, hr, StopCh.recv, Controller.Run]
    refine ⟨by simp, by decide, by decide, by decide, by decide, by decide, trivial⟩
  | some s =>
    simp only [Controller.StartAndRunController, hr, StopCh.recv, Controller.Run]
    refine ⟨by simp, by decide, by decide, by decide, by decide, by decide, trivial⟩

/-- C3 at a concrete input: the empty sync result with a stop channel that is
never closed. -/
theorem synced_startup_order_witness :
    (CacheSync.mk 0 []).allSynced = true ∧
    (sampleController.StartAndRunController ⟨none, some (CacheSync.mk 0 []), false⟩ 0).events =
      [Event.informerFactoryStart, Event.waitForCacheSync, Event.podQueueRun,
        Event.goRequeuePeriodically, Event.recvStop] ++
        (if (none : StopCh).isSome then [Event.handleCrash] else []) :=
  ⟨rfl, (synced_startup_order sampleController none false (CacheSync.mk 0 []) 0 rfl).1⟩

/-- C7, as the code behaves at a concrete input: with every cache synced and
a stop channel that is never closed, `StartAndRunController` does not return,
and its last step is the receive on the stop channel, not the heartbeat launch;
with the channel closed at instant 100 it returns at instant 100, not at the
instant the heartbeat was launched. -/
theorem startAndRun_nonblocking_counterexample :
    (sampleController.StartAndRunController
      ⟨none, some (CacheSync.mk 0 [("*v1.Pod", true)]), false⟩ 0).outcome = Outcome.blocked ∧
    (sampleController.StartAndRunController
      ⟨none, some (CacheSync.mk 0 [("*v1.Pod", true)]), false⟩ 0).events.getLast? =
        some Event.recvStop ∧
    (sampleController.StartAndRunController
      ⟨none, some (CacheSync.mk 0 [("*v1.Pod", true)]), false⟩ 0).events.getLast? ≠
        some Event.goRequeuePeriodically ∧
    (sampleController.StartAndRunController
      ⟨some 100, some (CacheSync.mk 0 [("*v1.Pod", true)]), false⟩ 0).outcome =
        Outcome.returned 100 := by
  decide

/-- C7, amended: when all caches sync, `StartAndRunController` starts the queue
workers, launches the heartbeat and then waits on the stop channel; it returns
exactly when that channel is closed (never, if it is never closed), so it
never returns before the stop signal. -/
theorem startAndRun_waits_for_stop (c : Controller) (stopCh : StopCh) (fatalReturns : Bool)
    (sync : CacheSync) (now : Nat) (h : sync.allSynced = true) :
    (c.StartAndRunController ⟨stopCh, some sync, fatalReturns⟩ now).outcome =
      (match stopCh with
        | none => Outcome.blocked
        | some closeTime => Outcome.returned (max (now + sync.elapsed) closeTime)) ∧
    (c.StartAndRunController ⟨stopCh, some sync, fatalReturns⟩ now).events =
      [Event.informerFactoryStart, Event.waitForCacheSync, Event.podQueueRun,
        Event.goRequeuePeriodically, Event.recvStop] ++
        (if stopCh.isSome then [Event.handleCrash] else []) ∧
    (∀ t, (c.StartAndRunController ⟨stopCh, some sync, fatalReturns⟩ now).outcome =
        Outcome.returned t → ∃ closeTime, stopCh = some closeTime ∧ closeTime ≤ t) := by
  have hr := rangeCacheSync_allSynced fatalReturns sync.visited h
  cases stopCh with
  | none =>
    simp only [Controller.StartAndRunController, hr, StopCh.recv, Controller.Run]
    refine ⟨trivial, by simp, ?_⟩
    intro t ht
    simp at ht
  | some s =>
    simp only [Controller.StartAndRunController, hr, StopCh.recv, Controller.Run]
    refine ⟨trivial, by simp, ?_⟩
    intro t ht
    refine ⟨s, rfl, ?_⟩
    simp only [Outcome.returned.injEq] at ht
    omega

/-- C7 amended, at a concrete input: one synced informer, stop at instant 100. -/
theorem startAndRun_waits_for_stop_witness :
    (CacheSync.mk 7 [("*v1.Pod", true)]).allSynced = true ∧
    (sampleController.StartAndRunController
      ⟨some 100, some (CacheSync.mk 7 [("*v1.Pod", true)]), false⟩ 0).outcome =
      (match (some 100 : StopCh) with
        | none => Outcome.blocked
        | some closeTime => Outcome.returned (max (0 + 7) closeTime)) :=
  ⟨rfl, (startAndRun_waits_for_stop sampleController (some 100) false
    (CacheSync.mk 7 [("*v1.Pod", true)]) 0 rfl).1⟩

theorem besides_of_not_exited (own other : Outcome) (h : ∀ e, other ≠ Outcome.exited e) :
    own.besides other = own := by
  cases other with
  | returned t => rfl
  | blocked => rfl
  | exited e => exact absurd rfl (h e)

/-- C8: as long as the launched `StartAndRunController` does not terminate the
process (it is still running, or it has returned), `RunLabelController` returns
at the instant the stop channel is closed (at once if it is already closed),
never before, and never if the channel is never closed; its own run is the
same for every such behaviour of the launched activity. -/
theorem runLabelController_returns_on_stop_only (c : Controller) (w : World) (now : Nat)
    (hbg : ∀ e, (c.StartAndRunController w now).outcome ≠ Outcome.exited e) :
    (c.RunLabelController w now).1.events = [Event.goStartAndRunController, Event.recvStop] ∧
    (c.RunLabelController w now).1.outcome =
      (match w.stopCh with
        | none => Outcome.blocked
        | some closeTime => Outcome.returned (max now closeTime)) ∧
    (∀ t, (c.RunLabelController w now).1.outcome = Outcome.returned t →
      ∃ closeTime, w.stopCh = some closeTime ∧ closeTime ≤ t) ∧
    (∀ (c2 : Controller) (w2 : World), w2.stopCh = w.stopCh →
      (∀ e, (c2.StartAndRunController w2 now).outcome ≠ Outcome.exited e) →
      (c2.RunLabelController w2 now).1 = (c.RunLabelController w now).1) ∧
    (c.RunLabelController w now).2 = c.StartAndRunController w now := by
  have hmain : ∀ (c1 : Controller) (w1 : World),
      (∀ e, (c1.StartAndRunController w1 now).outcome ≠ Outcome.exited e) →
      (c1.RunLabelController w1 now).1 =
        { events := [Event.goStartAndRunController, Event.recvStop]
          outcome := (match w1.stopCh with
            | none => Outcome.blocked
            | some closeTime => Outcome.returned (max now closeTime)) } := by
    intro c1 w1 h1
    obtain ⟨stopCh, cacheSync, fatalReturns⟩ := w1
    cases stopCh with
    | none =>
      simp only [Controller.RunLabelController, StopCh.recv, besides_of_not_exited _ _ h1]
    | some s =>
      simp only [Controller.RunLabelController, StopCh.recv, besides_of_not_exited _ _ h1]
  have hown := hmain c w hbg
  refine ⟨by rw [hown], by rw [hown], ?_, ?_, ?_⟩
  · intro t ht
    rw [hown] at ht
    cases hs : w.stopCh with
    | none => rw [hs] at ht; simp at ht
    | some s =>
      rw [hs] at ht
      simp only [Outcome.returned.injEq] at ht
      exact ⟨s, rfl, by omega⟩
  · intro c2 w2 hs h2
    rw [hown, hmain c2 w2 h2, hs]
  · obtain ⟨stopCh, cacheSync, fatalReturns⟩ := w
    cases stopCh <;> rfl

/-- C8 at a concrete input: the launched activity has returned after a failed
cache sync (the fatal log handing control back), the stop channel closes at
instant 2, and the caller returns at instant 2. -/
theorem runLabelController_returns_on_stop_only_witness :
    (∀ e, (sampleController.StartAndRunController
      ⟨some 2, some (CacheSync.mk 3 [("*v1.Pod", false)]), true⟩ 0).outcome ≠
        Outcome.exited e) ∧
    (sampleController.RunLabelController
      ⟨some 2, some (CacheSync.mk 3 [("*v1.Pod", false)]), true⟩ 0).1.outcome =
      (match (some 2 : StopCh) with
        | none => Outcome.blocked
        | some closeTime => Outcome.returned (max 0 closeTime)) :=
  ⟨by intro e he; simp [Controller.StartAndRunController, rangeCacheSync] at he,
   (runLabelController_returns_on_stop_only sampleController
      ⟨some 2, some (CacheSync.mk 3 [("*v1.Pod", false)]), true⟩ 0
      (by intro e he; simp [Controller.StartAndRunController, rangeCacheSync] at he)).2.1⟩

/-! ## Properties: the informer options -/

/-- C6, as the code behaves at a concrete input: for a controller returned by
`NewLabelController` the hook handed to the filtered pod informer is nil, the
list options go out with the label selector they came in with (here empty),
and that is not the textual form of the controller's selector. -/
theorem informer_options_from_selector_counterexample :
    (sampleController.initInformer 0).tweakListOptions.isNone = true ∧
    ((sampleController.initInformer 0).listOptions
      { LabelSelector := "", FieldSelector := "", ResourceVersion := "" }).LabelSelector = "" ∧
    sampleController.selector.String =
      "app.kubernetes.io/instance=demo,app.kubernetes.io/managed-by=kubedb.com,app.kubernetes.io/name=mysqls.kubedb.com" ∧
    ((sampleController.initInformer 0).listOptions
      { LabelSelector := "", FieldSelector := "", ResourceVersion := "" }).LabelSelector ≠
      sampleController.selector.String := by
  decide

/-- C6, amended: for every controller returned by `NewLabelController`,
`initInformer` hands the filtered pod informer the watch namespace, the
namespace indexer and the controller's own `tweakListOptions` hook, which the
constructor leaves nil; the informer's list options are therefore sent
unchanged, without any label selector derived from dbName and dbFQN, while the
selector built from them is kept in the separate `selector` field. -/
theorem informer_scoped_by_namespace_only (k : Consts) (env : Environ)
    (kubeInformerFactory clientConfig kubeClient dbClient : Handle)
    (maxNumRequeues numThreads : Int) (watchNamespace dbName dbFQN : String)
    (resyncPeriod : Nat) (options : ListOptions) :
    ((NewLabelController k env kubeInformerFactory clientConfig kubeClient dbClient
        maxNumRequeues numThreads watchNamespace dbName dbFQN).initInformer
          resyncPeriod).namespace_ = watchNamespace ∧
    ((NewLabelController k env kubeInformerFactory clientConfig kubeClient dbClient
        maxNumRequeues numThreads watchNamespace dbName dbFQN).initInformer
          resyncPeriod).tweakListOptions = none ∧
    ((NewLabelController k env kubeInformerFactory clientConfig kubeClient dbClient
        maxNumRequeues numThreads watchNamespace dbName dbFQN).initInformer
          resyncPeriod).listOptions options = options ∧
    (NewLabelController k env kubeInformerFactory clientConfig kubeClient dbClient
        maxNumRequeues numThreads watchNamespace dbName dbFQN).selector =
      labels.SelectorFromSet (labels.mapLiteral
        [(k.NameLabelKey, dbFQN), (k.InstanceLabelKey, dbName),
          (k.ManagedByLabelKey, k.GroupName)]) :=
  ⟨rfl, rfl, rfl, rfl⟩

/-! ## Properties: the heartbeat -/

theorem enqueues_append (l1 l2 : List Event) : enqueues (l1 ++ l2) = enqueues l1 ++ enqueues l2 := by
  simp [enqueues, List.filterMap_append]

theorem warnings_append (l1 l2 : List Event) : warnings (l1 ++ l2) = warnings l1 ++ warnings l2 := by
  simp [warnings, List.filterMap_append]

theorem fatals_append (l1 l2 : List Event) : fatals (l1 ++ l2) = fatals l1 ++ fatals l2 := by
  simp [fatals, List.filterMap_append]

/-- C4: one fire of the heartbeat makes exactly one `Add` call on the pod
queue, with the key namespace, "/", podName, and reports `(false, nil)`; for a
controller built by `NewLabelController` the key is the environment's
namespace, "/", and `POD_NAME`, whatever the database name, FQN, watch
namespace and selector are, and whatever the queue holds. -/
theorem heartbeat_fire_adds_own_key (c : Controller) (h : Heap) (k : Consts) (env : Environ)
    (kubeInformerFactory clientConfig kubeClient dbClient : Handle)
    (maxNumRequeues numThreads : Int) (watchNamespace dbName dbFQN : String) :
    enqueues (c.requeueCondition h).1.log =
      enqueues h.log ++ [c.namespace_ ++ "/" ++ c.podName] ∧
    (c.requeueCondition h).1.log =
      h.log ++ [Event.queueAdd (c.namespace_ ++ "/" ++ c.podName)] ∧
    (c.requeueCondition h).1.podQueue = h.podQueue.Add (c.namespace_ ++ "/" ++ c.podName) ∧
    (c.requeueCondition h).2 = (false, none) ∧
    (NewLabelController k env kubeInformerFactory clientConfig kubeClient dbClient
        maxNumRequeues numThreads watchNamespace dbName dbFQN).requeueKey =
      env.Namespace ++ "/" ++ env.POD_NAME ∧
    ((NewLabelController k env kubeInformerFactory clientConfig kubeClient dbClient
        maxNumRequeues numThreads watchNamespace dbName dbFQN).requeueCondition h).1.log =
      h.log ++ [Event.queueAdd (env.Namespace ++ "/" ++ env.POD_NAME)] := by
  refine ⟨?_, rfl, rfl, rfl, rfl, rfl⟩
  simp [Controller.requeueCondition, Controller.requeueKey, enqueues_append, enqueues]

theorem fires_log (c : Controller) (n : Nat) (h : Heap) :
    (c.fires n h).log = h.log ++ List.replicate n (Event.queueAdd c.requeueKey) := by
  induction n with
  | zero => simp [Controller.fires]
  | succ n ih =>
    simp [Controller.fires, Controller.requeueCondition, ih, List.replicate_succ',
      List.append_assoc]

theorem pollInstant_open {σ : Type} (interval : Nat)
    (condition : σ → σ × Bool × Option wait.GoError) (stopCh : StopCh) (tickWinsTie : Bool)
    (start now : Nat) (s : σ) (hopen : stopCh.closedAt now = false)
    (hcond : ∀ x, (condition x).2 = (false, none)) :
    wait.pollInstant interval condition stopCh tickWinsTie start now s =
      (if decide (start < now) && ((now - start) % interval == 0) then (condition s).1 else s,
        wait.PollStatus.waiting) := by
  unfold wait.pollInstant
  simp only [hopen, Bool.false_and, Bool.false_eq_true, if_false]
  by_cases ht : (decide (start < now) && ((now - start) % interval == 0)) = true
  · simp only [ht, if_true]
    have h2 := hcond s
    rcases hc : condition s with ⟨s1, d, e⟩
    rw [hc] at h2
    simp only [Prod.mk.injEq] at h2
    obtain ⟨rfl, rfl⟩ := h2
    rfl
  · simp only [ht, if_false]
    simp

theorem closedAt_false_of_lt (stopCh : StopCh) (now : Nat)
    (h : ∀ closeTime, stopCh = some closeTime → now < closeTime) :
    stopCh.closedAt now = false := by
  cases stopCh with
  | none => rfl
  | some s =>
    have := h s rfl
    simp [StopCh.closedAt]
    omega

/-- While the stop channel stays open, the heartbeat poll is waiting and has
fired once per full interval elapsed. -/
theorem pollUntil_requeue_waiting (c : Controller) (stopCh : StopCh) (tickWinsTie : Bool)
    (start : Nat) (h : Heap) (elapsed : Nat)
    (hstop : ∀ closeTime, stopCh = some closeTime → start + elapsed < closeTime) :
    wait.PollUntil requeueInterval c.requeueCondition stopCh tickWinsTie start elapsed h =
      (c.fires (elapsed / 10) h, wait.PollStatus.waiting) := by
  induction elapsed with
  | zero =>
    have hopen := closedAt_false_of_lt stopCh start (by simpa using hstop)
    have hi := pollInstant_open requeueInterval c.requeueCondition stopCh tickWinsTie start
      start h hopen (fun _ => rfl)
    simp [wait.PollUntil, hi, Controller.fires]
  | succ n ih =>
    have ih1 := ih (fun s hs => by have := hstop s hs; omega)
    have hopen := closedAt_false_of_lt stopCh (start + n + 1)
      (fun s hs => by have := hstop s hs; omega)
    have hi := pollInstant_open requeueInterval c.requeueCondition stopCh tickWinsTie start
      (start + n + 1) (c.fires (n / 10) h) hopen (fun _ => rfl)
    have hnow : start + n + 1 - start = n + 1 := by omega
    have hlt : start < start + n + 1 := by omega
    simp only [hnow, hlt, decide_True, Bool.true_and] at hi
    rw [wait.PollUntil, ih1]
    simp only [hi]
    by_cases hd : (n + 1) % 10 = 0
    · have hq : (n + 1) / 10 = n / 10 + 1 := by omega
      simp [hd, hq, Controller.fires, requeueInterval]
    · have hq : (n + 1) / 10 = n / 10 := by omega
      simp [hd, hq, requeueInterval]

theorem enqueue_length_while_open (c : Controller) (stopCh : StopCh) (tickWinsTie : Bool)
    (start t : Nat) (h : Heap)
    (hstop : ∀ closeTime, stopCh = some closeTime → start + t < closeTime) :
    (enqueues (c.requeuePeriodically stopCh tickWinsTie start t h).1.log).length =
      (enqueues h.log).length + t / 10 := by
  have hp := pollUntil_requeue_waiting c stopCh tickWinsTie start h t hstop
  have hl := fires_log c (t / 10) h
  simp only [Controller.requeuePeriodically, hp]
  rw [hl, enqueues_append]
  simp [enqueues, Controller.requeueKey]

/-- C5: as long as the stop channel has not been closed by second `t` after the
heartbeat loop started, the loop is still polling and has made exactly
`t / 10` enqueues (integer division): none before the first full interval, one
per interval after; with a channel that is never closed this holds for every
`t`, so the loop never ends on its own. -/
theorem heartbeat_enqueue_count (c : Controller) (stopCh : StopCh) (tickWinsTie : Bool)
    (start t : Nat) (h : Heap)
    (hstop : ∀ closeTime, stopCh = some closeTime → start + t < closeTime) :
    (c.requeuePeriodically stopCh tickWinsTie start t h).2 = none ∧
    (c.requeuePeriodically stopCh tickWinsTie start t h).1.log =
      h.log ++ List.replicate (t / 10) (Event.queueAdd (c.namespace_ ++ "/" ++ c.podName)) ∧
    (enqueues (c.requeuePeriodically stopCh tickWinsTie start t h).1.log).length =
      (enqueues h.log).length + t / 10 := by
  have hp := pollUntil_requeue_waiting c stopCh tickWinsTie start h t hstop
  have hl := fires_log c (t / 10) h
  simp only [Controller.requeuePeriodically, hp]
  refine ⟨trivial, hl, ?_⟩
  rw [hl, enqueues_append]
  simp [enqueues, Controller.requeueKey]

/-- C5 at a concrete input: 35 seconds without a stop signal give 3 enqueues. -/
theorem heartbeat_enqueue_count_witness :
    (∀ closeTime, (none : StopCh) = some closeTime → 0 + 35 < closeTime) ∧
    (enqueues (sampleController.requeuePeriodically none false 0 35
      { podQueue := workqueue.Queue.empty, log := [] }).1.log).length = 0 + 35 / 10 ∧
    3 ≤ (enqueues (sampleController.requeuePeriodically none false 0 35
      { podQueue := workqueue.Queue.empty, log := [] }).1.log).length :=
  ⟨by simp,
   (heartbeat_enqueue_count sampleController none false 0 35
      { podQueue := workqueue.Queue.empty, log := [] } (by simp)).2.2,
   by decide⟩

theorem fires_warnings (c : Controller) (n : Nat) (h : Heap) :
    warnings (c.fires n h).log = warnings h.log := by
  rw [fires_log, warnings_append]
  have : warnings (List.replicate n (Event.queueAdd c.requeueKey)) = [] := by
    induction n with
    | zero => rfl
    | succ n ih => simp [List.replicate_succ, warnings]
  simp [this]

theorem fires_fatals (c : Controller) (n : Nat) (h : Heap) :
    fatals (c.fires n h).log = fatals h.log := by
  rw [fires_log, fatals_append]
  have : fatals (List.replicate n (Event.queueAdd c.requeueKey)) = [] := by
    induction n with
    | zero => rfl
    | succ n ih => simp [List.replicate_succ, fatals]
  simp [this]

theorem pollInstant_closed (c : Controller) (stopCh : StopCh) (tickWinsTie : Bool)
    (start now : Nat) (h : Heap) (hclosed : stopCh.closedAt now = true) :
    ∃ n, wait.pollInstant requeueInterval c.requeueCondition stopCh tickWinsTie start now h =
      (c.fires n h, wait.PollStatus.ended now (some wait.ErrWaitTimeout)) := by
  unfold wait.pollInstant
  simp only [hclosed, Bool.true_and]
  by_cases ht : (decide (start < now) && ((now - start) % requeueInterval == 0)
      && tickWinsTie) = true
  · have ht1 : (decide (start < now) && ((now - start) % requeueInterval == 0)) = true := by
      simp only [Bool.and_eq_true] at ht
      simp only [Bool.and_eq_true]
      exact ht.1
    have htie : tickWinsTie = true := by
      simp only [Bool.and_eq_true] at ht
      exact ht.2
    subst htie
    refine ⟨1, ?_⟩
    simp [ht1, Controller.requeueCondition, Controller.fires]
  · refine ⟨0, ?_⟩
    simp [ht, Controller.fires]

/-- Once the stop channel is closed the heartbeat poll has ended, at the
instant of the close (or at its start, if the channel was closed before), with
the stop error. -/
theorem pollUntil_requeue_ended (c : Controller) (closeTime : Nat) (tickWinsTie : Bool)
    (start : Nat) (h : Heap) (elapsed : Nat) (hclosed : closeTime ≤ start + elapsed) :
    ∃ n, wait.PollUntil requeueInterval c.requeueCondition (some closeTime) tickWinsTie start
        elapsed h =
      (c.fires n h, wait.PollStatus.ended (max start closeTime) (some wait.ErrWaitTimeout)) := by
  induction elapsed with
  | zero =>
    have hc : StopCh.closedAt (some closeTime) start = true := by
      simp [StopCh.closedAt]; omega
    obtain ⟨n, hn⟩ := pollInstant_closed c (some closeTime) tickWinsTie start start h hc
    have hm : max start closeTime = start := by omega
    exact ⟨n, by rw [wait.PollUntil, hn, hm]⟩
  | succ m ih =>
    by_cases hle : closeTime ≤ start + m
    · obtain ⟨n, hn⟩ := ih hle
      exact ⟨n, by rw [wait.PollUntil, hn]⟩
    · have heq : closeTime = start + m + 1 := by omega
      have hw := pollUntil_requeue_waiting c (some closeTime) tickWinsTie start h m
        (fun s hs => by simp only [Option.some.injEq] at hs; omega)
      have hc : StopCh.closedAt (some closeTime) (start + m + 1) = true := by
        simp [StopCh.closedAt]; omega
      obtain ⟨n, hn⟩ := pollInstant_closed c (some closeTime) tickWinsTie start
        (start + m + 1) (c.fires (m / 10) h) hc
      have hm : max start closeTime = start + m + 1 := by omega
      have hcomp : ∀ a b, c.fires a (c.fires b h) = c.fires (b + a) h := by
        intro a b
        induction a with
        | zero => rfl
        | succ a iha =>
          show (c.requeueCondition (c.fires a (c.fires b h))).1 =
            (c.requeueCondition (c.fires (b + a) h)).1
          rw [iha]
      refine ⟨m / 10 + n, ?_⟩
      rw [wait.PollUntil, hw]
      simp only [hn, hm, hcomp]

/-- C10: `requeuePeriodically` has returned only if the stop channel was
closed, no earlier than the close; it does return once the channel is closed
and never when it is not; and whenever it has returned, it has logged exactly
one warning, "failed to requeue pod namespace/podName" with the stop error as
reason, and no fatal message, although every enqueue went through. -/
theorem requeue_returns_on_stop_with_warning (c : Controller) (stopCh : StopCh)
    (tickWinsTie : Bool) (start elapsed : Nat) (h : Heap) :
    (∀ t, (c.requeuePeriodically stopCh tickWinsTie start elapsed h).2 = some t →
      (∃ closeTime, stopCh = some closeTime ∧ closeTime ≤ t) ∧
      warnings (c.requeuePeriodically stopCh tickWinsTie start elapsed h).1.log =
        warnings h.log ++ ["failed to requeue pod " ++ c.namespace_ ++ "/" ++ c.podName ++
          ". Reason: " ++ wait.ErrWaitTimeout] ∧
      fatals (c.requeuePeriodically stopCh tickWinsTie start elapsed h).1.log = fatals h.log) ∧
    (∀ closeTime, stopCh = some closeTime → closeTime ≤ start + elapsed →
      (c.requeuePeriodically stopCh tickWinsTie start elapsed h).2 =
        some (max start closeTime)) ∧
    (stopCh = none → (c.requeuePeriodically stopCh tickWinsTie start elapsed h).2 = none) := by
  have hended : ∀ closeTime, stopCh = some closeTime → closeTime ≤ start + elapsed →
      ∃ n, c.requeuePeriodically stopCh tickWinsTie start elapsed h =
        ({ c.fires n h with log := (c.fires n h).log ++ [Event.warningf ("failed to requeue pod "
            ++ c.namespace_ ++ "/" ++ c.podName ++ ". Reason: " ++ wait.ErrWaitTimeout)] },
          some (max start closeTime)) := by
    intro closeTime hs hle
    subst hs
    obtain ⟨n, hn⟩ := pollUntil_requeue_ended c closeTime tickWinsTie start h elapsed hle
    exact ⟨n, by simp only [Controller.requeuePeriodically, hn]⟩
  have hwaiting : (∀ closeTime, stopCh = some closeTime → start + elapsed < closeTime) →
      (c.requeuePeriodically stopCh tickWinsTie start elapsed h).2 = none := by
    intro hopen
    simp only [Controller.requeuePeriodically,
      pollUntil_requeue_waiting c stopCh tickWinsTie start h elapsed hopen]
  refine ⟨?_, ?_, ?_⟩
  · intro t ht
    by_cases hopen : ∀ closeTime, stopCh = some closeTime → start + elapsed < closeTime
    · rw [hwaiting hopen] at ht
      simp at ht
    · simp only [not_forall] at hopen
      obtain ⟨closeTime, hs, hnlt⟩ := hopen
      obtain ⟨n, hn⟩ := hended closeTime hs (by omega)
      rw [hn] at ht ⊢
      simp only [Option.some.injEq] at ht
      refine ⟨⟨closeTime, hs, by omega⟩, ?_, ?_⟩
      · simp only [warnings_append, fires_warnings]
        simp [warnings]
      · simp only [fatals_append, fires_fatals]
        simp [fatals]
  · intro closeTime hs hle
    obtain ⟨n, hn⟩ := hended closeTime hs hle
    rw [hn]
  · intro hs
    exact hwaiting (fun s hs2 => by rw [hs] at hs2; simp at hs2)

/-- C10 at a concrete input: the stop channel closes at second 25; observed at
second 40 the heartbeat has returned at second 25 after two enqueues, with one
warning in the log. -/
theorem requeue_returns_on_stop_with_warning_witness :
    (sampleController.requeuePeriodically (some 25) false 0 40
      { podQueue := workqueue.Queue.empty, log := [] }).2 = some (max 0 25) ∧
    (sampleController.requeuePeriodically (some 25) false 0 40
      { podQueue := workqueue.Queue.empty, log := [] }).1.log =
      [Event.queueAdd "db/demo-0", Event.queueAdd "db/demo-0",
        Event.warningf
          "failed to requeue pod db/demo-0. Reason: timed out waiting for the condition"] :=
  ⟨(requeue_returns_on_stop_with_warning sampleController (some 25) false 0 40
      { podQueue := workqueue.Queue.empty, log := [] }).2.1 25 rfl (by decide),
   by decide⟩

/-! ## Properties: the work queue under the heartbeat -/

theorem wellFormed_empty : workqueue.Queue.empty.WellFormed := by
  decide

theorem add_of_mem_pending (q : workqueue.Queue) (item : String) (h : item ∈ q.pending) :
    q.Add item = q := by
  unfold workqueue.Queue.Add
  by_cases hs : q.shutDown = true
  · simp [hs]
  · simp [hs, h]

theorem add_pending_of_idle (q : workqueue.Queue) (item : String)
    (hlive : q.shutDown = false) (hnp : item ∉ q.pending) (hnproc : item ∉ q.processing) :
    q.Add item = { q with pending := q.pending ++ [item] } := by
  unfold workqueue.Queue.Add
  simp [hlive, hnp, hnproc]

theorem wellFormed_add (q : workqueue.Queue) (item : String) (hwf : q.WellFormed) :
    (q.Add item).WellFormed := by
  obtain ⟨hp, hproc, hd, hdisj, hsub⟩ := hwf
  unfold workqueue.Queue.Add
  by_cases hs : q.shutDown = true
  · simpa [hs] using ⟨hp, hproc, hd, hdisj, hsub⟩
  · by_cases h1 : item ∈ q.pending
    · simpa [hs, h1] using ⟨hp, hproc, hd, hdisj, hsub⟩
    · by_cases h2 : item ∈ q.processing
      · by_cases h3 : item ∈ q.deferred
        · simpa [hs, h1, h2, h3] using ⟨hp, hproc, hd, hdisj, hsub⟩
        · simp only [hs, h1, h2, h3, if_false, if_true, Bool.false_eq_true]
          refine ⟨hp, hproc, ?_, hdisj, ?_⟩
          · exact List.Nodup.append hd (List.nodup_singleton _) (by simpa using h3)
          · intro x hx
            rcases List.mem_append.mp hx with hx1 | hx1
            · exact hsub x hx1
            · simp only [List.mem_singleton] at hx1
              subst hx1
              exact h2
      · simp only [hs, h1, h2, if_false, Bool.false_eq_true]
        refine ⟨?_, hproc, hd, ?_, hsub⟩
        · exact List.Nodup.append hp (List.nodup_singleton _) (by simpa using h1)
        · intro x hx
          rcases List.mem_append.mp hx with hx1 | hx1
          · exact hdisj x hx1
          · simp only [List.mem_singleton] at hx1
            subst hx1
            exact h2

theorem wellFormed_get (q : workqueue.Queue) (hwf : q.WellFormed) : q.Get.1.WellFormed := by
  obtain ⟨hp, hproc, hd, hdisj, hsub⟩ := hwf
  unfold workqueue.Queue.Get
  rcases hq : q.pending with _ | ⟨item, rest⟩
  · simp only
    exact ⟨hq ▸ hp, hproc, hd, hdisj, hsub⟩
  · simp only
    rw [hq] at hp hdisj
    have hitem : item ∉ rest := (List.nodup_cons.mp hp).1
    refine ⟨(List.nodup_cons.mp hp).2, ?_, hd, ?_, ?_⟩
    · exact List.Nodup.append hproc (List.nodup_singleton _)
        (by simpa using hdisj item (List.mem_cons_self _ _))
    · intro x hx hx2
      rcases List.mem_append.mp hx2 with hx3 | hx3
      · exact hdisj x (List.mem_cons_of_mem _ hx) hx3
      · simp only [List.mem_singleton] at hx3
        subst hx3
        exact hitem hx
    · intro x hx
      exact List.mem_append_left _ (hsub x hx)

theorem wellFormed_done (q : workqueue.Queue) (item : String) (hwf : q.WellFormed) :
    (q.Done item).WellFormed := by
  obtain ⟨hp, hproc, hd, hdisj, hsub⟩ := hwf
  unfold workqueue.Queue.Done
  by_cases h3 : item ∈ q.deferred
  · simp only [h3, if_true]
    have hnp : item ∉ q.pending := fun hx => hdisj item hx (hsub item h3)
    refine ⟨?_, hproc.erase _, hd.erase _, ?_, ?_⟩
    · exact List.Nodup.append hp (List.nodup_singleton _) (by simpa using hnp)
    · intro x hx hx2
      rcases List.mem_append.mp hx with hx1 | hx1
      · exact hdisj x hx1 (List.mem_of_mem_erase hx2)
      · simp only [List.mem_singleton] at hx1
        subst hx1
        exact (List.Nodup.mem_erase_iff hproc).mp hx2 |>.1 rfl
    · intro x hx
      have hx1 := (List.Nodup.mem_erase_iff hd).mp hx
      exact (List.Nodup.mem_erase_iff hproc).mpr ⟨hx1.1, hsub x hx1.2⟩
  · simp only [h3, if_false]
    refine ⟨hp, hproc.erase _, hd, ?_, ?_⟩
    · intro x hx hx2
      exact hdisj x hx (List.mem_of_mem_erase hx2)
    · intro x hx
      have hne : x ≠ item := fun he => h3 (he ▸ hx)
      exact (List.Nodup.mem_erase_iff hproc).mpr ⟨hne, hsub x hx⟩

theorem fires_succ_podQueue (c : Controller) (n : Nat) (h : Heap) :
    (c.fires (n + 1) h).podQueue = (c.fires n h).podQueue.Add c.requeueKey := rfl

theorem mem_pending_add (q : workqueue.Queue) (item : String)
    (hlive : q.shutDown = false) (hidle : item ∉ q.processing) :
    item ∈ (q.Add item).pending := by
  by_cases hp : item ∈ q.pending
  · rw [add_of_mem_pending _ _ hp]
    exact hp
  · rw [add_pending_of_idle _ _ hlive hp hidle]
    simp

theorem add_shutDown (q : workqueue.Queue) (item : String) :
    (q.Add item).shutDown = q.shutDown := by
  unfold workqueue.Queue.Add
  split_ifs <;> rfl

theorem add_processing (q : workqueue.Queue) (item : String) :
    (q.Add item).processing = q.processing := by
  unfold workqueue.Queue.Add
  split_ifs <;> rfl

theorem pending_subset_add (q : workqueue.Queue) (item x : String) (hx : x ∈ q.pending) :
    x ∈ (q.Add item).pending := by
  unfold workqueue.Queue.Add
  split_ifs <;> simp [hx]

theorem enqueues_replicate (n : Nat) (key : String) :
    enqueues (List.replicate n (Event.queueAdd key)) = List.replicate n key := by
  induction n with
  | zero => rfl
  | succ n ih =>
    rw [List.replicate_succ, List.replicate_succ, ← ih]
    rfl

theorem fires_add_once (c : Controller) (h : Heap) (n : Nat)
    (hlive : h.podQueue.shutDown = false) (hidle : c.requeueKey ∉ h.podQueue.processing) :
    (c.fires (n + 1) h).podQueue = h.podQueue.Add c.requeueKey := by
  induction n with
  | zero => rfl
  | succ n ih =>
    rw [fires_succ_podQueue, ih]
    exact add_of_mem_pending _ _ (mem_pending_add _ _ hlive hidle)

/-- Whatever the stop channel does, the heap `requeuePeriodically` leaves is
the one some number of fires gives, and its log shows that many enqueues. -/
theorem requeuePeriodically_fires (c : Controller) (stopCh : StopCh) (tickWinsTie : Bool)
    (start elapsed : Nat) (h : Heap) :
    ∃ n, (c.requeuePeriodically stopCh tickWinsTie start elapsed h).1.podQueue =
        (c.fires n h).podQueue ∧
      enqueues (c.requeuePeriodically stopCh tickWinsTie start elapsed h).1.log =
        enqueues h.log ++ List.replicate n c.requeueKey := by
  have hlog : ∀ n, enqueues (c.fires n h).log = enqueues h.log ++ List.replicate n c.requeueKey := by
    intro n
    rw [fires_log, enqueues_append, enqueues_replicate]
  by_cases hopen : ∀ closeTime, stopCh = some closeTime → start + elapsed < closeTime
  · refine ⟨elapsed / 10, ?_⟩
    simp only [Controller.requeuePeriodically,
      pollUntil_requeue_waiting c stopCh tickWinsTie start h elapsed hopen]
    exact ⟨trivial, hlog _⟩
  · simp only [not_forall] at hopen
    obtain ⟨closeTime, hs, hnlt⟩ := hopen
    subst hs
    obtain ⟨n, hn⟩ := pollUntil_requeue_ended c closeTime tickWinsTie start h elapsed (by omega)
    refine ⟨n, ?_⟩
    simp only [Controller.requeuePeriodically, hn]
    refine ⟨trivial, ?_⟩
    rw [enqueues_append, hlog]
    simp [enqueues]

/-- A call that neither shuts the queue down nor hands the key to a worker
keeps the queue well formed and live, keeps the key away from the workers and
keeps it pending if it was; a fire of the heartbeat makes it pending. -/
theorem call_keeps_key_pending (c : Controller) (h : Heap) (call : QueueCall)
    (hwf : h.podQueue.WellFormed) (hlive : h.podQueue.shutDown = false)
    (hidle : c.requeueKey ∉ h.podQueue.processing)
    (hcall : call ≠ QueueCall.shutDown) (hgot : (c.call h call).2 ≠ some c.requeueKey) :
    (c.call h call).1.podQueue.WellFormed ∧
    (c.call h call).1.podQueue.shutDown = false ∧
    c.requeueKey ∉ (c.call h call).1.podQueue.processing ∧
    (c.requeueKey ∈ h.podQueue.pending ∨ call = QueueCall.heartbeat →
      c.requeueKey ∈ (c.call h call).1.podQueue.pending) := by
  cases call with
  | heartbeat =>
    refine ⟨wellFormed_add _ _ hwf, ?_, ?_, fun _ => mem_pending_add _ _ hlive hidle⟩
    · simpa [Controller.call, Controller.requeueCondition, add_shutDown] using hlive
    · simpa [Controller.call, Controller.requeueCondition, add_processing] using hidle
  | add item =>
    refine ⟨wellFormed_add _ _ hwf, ?_, ?_, ?_⟩
    · simpa [Controller.call, add_shutDown] using hlive
    · simpa [Controller.call, add_processing] using hidle
    · intro hp
      rcases hp with hp | hp
      · exact pending_subset_add _ _ _ hp
      · cases hp
  | get =>
    refine ⟨wellFormed_get _ hwf, ?_, ?_, ?_⟩
    · simp only [Controller.call, workqueue.Queue.Get]
      rcases hq : h.podQueue.pending with _ | ⟨item, rest⟩
      · exact hlive
      · exact hlive
    · simp only [Controller.call, workqueue.Queue.Get] at hgot ⊢
      rcases hq : h.podQueue.pending with _ | ⟨item, rest⟩
      · exact hidle
      · rw [hq] at hgot
        simp only [ne_eq, Option.some.injEq] at hgot
        simp only [List.mem_append, List.mem_singleton, not_or]
        exact ⟨hidle, fun he => hgot he.symm⟩
    · intro hp
      rcases hp with hp | hp
      · simp only [Controller.call, workqueue.Queue.Get] at hgot ⊢
        rcases hq : h.podQueue.pending with _ | ⟨item, rest⟩
        · rw [hq] at hp
          cases hp
        · rw [hq] at hgot hp
          simp only [ne_eq, Option.some.injEq] at hgot
          rcases List.mem_cons.mp hp with he | hr
          · exact absurd he.symm hgot
          · exact hr
      · cases hp
  | done item =>
    refine ⟨wellFormed_done _ _ hwf, ?_, ?_, ?_⟩
    · simp only [Controller.call, workqueue.Queue.Done]
      split_ifs <;> exact hlive
    · simp only [Controller.call, workqueue.Queue.Done]
      split_ifs <;> exact fun hx => hidle (List.mem_of_mem_erase hx)
    · intro hp
      rcases hp with hp | hp
      · simp only [Controller.call, workqueue.Queue.Done]
        split_ifs
        · exact List.mem_append_left _ hp
        · exact hp
      · cases hp
  | shutDown => exact absurd rfl hcall

/-- Through any sequence of calls that never shuts the queue down and never
hands the key to a worker, the key is pending at the end once it was pending
or the heartbeat has fired, and the queue is still well formed. -/
theorem calls_keep_key_pending (c : Controller) (calls : List QueueCall) (h : Heap)
    (hwf : h.podQueue.WellFormed) (hlive : h.podQueue.shutDown = false)
    (hidle : c.requeueKey ∉ h.podQueue.processing)
    (hcalls : QueueCall.shutDown ∉ calls) (hgot : c.requeueKey ∉ (c.calls calls h).2)
    (hfire : c.requeueKey ∈ h.podQueue.pending ∨ QueueCall.heartbeat ∈ calls) :
    (c.calls calls h).1.podQueue.WellFormed ∧
    c.requeueKey ∈ (c.calls calls h).1.podQueue.pending := by
  induction calls generalizing h with
  | nil =>
    rcases hfire with hp | hp
    · exact ⟨hwf, hp⟩
    · cases hp
  | cons call rest ih =>
    simp only [Controller.calls, List.mem_append, not_or] at hgot
    have hne : call ≠ QueueCall.shutDown := fun he => hcalls (he ▸ List.mem_cons_self _ _)
    have hnot : (c.call h call).2 ≠ some c.requeueKey := by
      intro he
      apply hgot.1
      rw [he]
      simp
    obtain ⟨hwf1, hlive1, hidle1, hpend1⟩ :=
      call_keeps_key_pending c h call hwf hlive hidle hne hnot
    have hrest : QueueCall.shutDown ∉ rest := fun hx => hcalls (List.mem_cons_of_mem _ hx)
    have hfire1 : c.requeueKey ∈ (c.call h call).1.podQueue.pending ∨
        QueueCall.heartbeat ∈ rest := by
      rcases hfire with hp | hp
      · exact Or.inl (hpend1 (Or.inl hp))
      · rcases List.mem_cons.mp hp with he | hr
        · exact Or.inl (hpend1 (Or.inr he.symm))
        · exact Or.inr hr
    exact ih (c.call h call).1 hwf1 hlive1 hidle1 hrest hgot.2 hfire1

/-- C9, as the queue behaves at a concrete input: on a pod queue that was shut
down, three heartbeat fires (35 seconds of `requeuePeriodically`, or three
fires after a shutdown call) leave no pending entry for the key. -/
theorem heartbeat_fires_shut_down_queue_counterexample :
    (workqueue.Queue.mk [] [] [] true).WellFormed ∧
    sampleController.namespace_ ++ "/" ++ sampleController.podName = "db/demo-0" ∧
    (enqueues (sampleController.requeuePeriodically none false 0 35
      { podQueue := workqueue.Queue.mk [] [] [] true, log := [] }).1.log).length = 3 ∧
    (sampleController.requeuePeriodically none false 0 35
      { podQueue := workqueue.Queue.mk [] [] [] true, log := [] }).1.podQueue.pending.count
        "db/demo-0" = 0 ∧
    (sampleController.calls
      [QueueCall.shutDown, QueueCall.heartbeat, QueueCall.heartbeat, QueueCall.heartbeat]
      { podQueue := workqueue.Queue.empty, log := [] }).1.podQueue.pending.count
        "db/demo-0" = 0 := by
  decide

/-- C9, amended: on a pod queue that satisfies the queue invariant, has not
been shut down and has not handed the heartbeat key to a worker, `N >= 1`
heartbeat fires leave exactly one pending entry for the key namespace/podName.
This holds for `requeuePeriodically` whenever its log shows `N` enqueues (the
queue is then the one a single `Add` of the key gives), in particular after
`N` full intervals without a stop signal, and for every sequence of queue calls
containing `N` fires in which the queue is not shut down and the key is not
handed to a worker, whatever other `Add`, `Get` and `Done` calls come in
between.  An `Add` of an identifier that is already pending changes nothing,
and neither does an `Add` on a queue that was shut down. -/
theorem heartbeat_fires_leave_one_pending (c : Controller) (h : Heap) (N : Nat) (hN : 1 ≤ N)
    (hwf : h.podQueue.WellFormed) (hlive : h.podQueue.shutDown = false)
    (hidle : (c.namespace_ ++ "/" ++ c.podName) ∉ h.podQueue.processing) :
    (∀ (stopCh : StopCh) (tickWinsTie : Bool) (start elapsed : Nat),
      (enqueues (c.requeuePeriodically stopCh tickWinsTie start elapsed h).1.log).length =
        (enqueues h.log).length + N →
      (c.requeuePeriodically stopCh tickWinsTie start elapsed h).1.podQueue.pending.count
        (c.namespace_ ++ "/" ++ c.podName) = 1 ∧
      (c.requeuePeriodically stopCh tickWinsTie start elapsed h).1.podQueue =
        h.podQueue.Add (c.namespace_ ++ "/" ++ c.podName)) ∧
    (∀ (stopCh : StopCh) (tickWinsTie : Bool) (start elapsed : Nat),
      (∀ closeTime, stopCh = some closeTime → start + elapsed < closeTime) →
      elapsed / 10 = N →
      (enqueues (c.requeuePeriodically stopCh tickWinsTie start elapsed h).1.log).length =
        (enqueues h.log).length + N ∧
      (c.requeuePeriodically stopCh tickWinsTie start elapsed h).1.podQueue.pending.count
        (c.namespace_ ++ "/" ++ c.podName) = 1) ∧
    (∀ calls : List QueueCall, calls.count QueueCall.heartbeat = N →
      QueueCall.shutDown ∉ calls →
      (c.namespace_ ++ "/" ++ c.podName) ∉ (c.calls calls h).2 →
      (c.calls calls h).1.podQueue.pending.count (c.namespace_ ++ "/" ++ c.podName) = 1) ∧
    (∀ (q : workqueue.Queue) (item : String), item ∈ q.pending → q.Add item = q) ∧
    (∀ (q : workqueue.Queue) (item : String), q.shutDown = true → q.Add item = q) := by
  have hkey : c.requeueKey = c.namespace_ ++ "/" ++ c.podName := rfl
  rw [← hkey] at hidle ⊢
  have hone : ∀ stopCh tickWinsTie start elapsed,
      (enqueues (c.requeuePeriodically stopCh tickWinsTie start elapsed h).1.log).length =
        (enqueues h.log).length + N →
      (c.requeuePeriodically stopCh tickWinsTie start elapsed h).1.podQueue.pending.count
        c.requeueKey = 1 ∧
      (c.requeuePeriodically stopCh tickWinsTie start elapsed h).1.podQueue =
        h.podQueue.Add c.requeueKey := by
    intro stopCh tickWinsTie start elapsed hlen
    obtain ⟨n, hq, hl⟩ := requeuePeriodically_fires c stopCh tickWinsTie start elapsed h
    rw [hl, List.length_append, List.length_replicate] at hlen
    obtain ⟨m, rfl⟩ : ∃ m, n = m + 1 := ⟨n - 1, by omega⟩
    rw [hq, fires_add_once c h m hlive hidle]
    exact ⟨List.count_eq_one_of_mem (wellFormed_add _ _ hwf).1
      (mem_pending_add _ _ hlive hidle), rfl⟩
  refine ⟨hone, ?_, ?_, add_of_mem_pending, ?_⟩
  · intro stopCh tickWinsTie start elapsed hopen hdiv
    have hcount := (enqueue_length_while_open c stopCh tickWinsTie start elapsed h hopen)
    rw [hdiv] at hcount
    exact ⟨hcount, (hone stopCh tickWinsTie start elapsed hcount).1⟩
  · intro calls hcount hshut hgot
    have hfire : QueueCall.heartbeat ∈ calls := by
      apply List.count_pos_iff.mp
      omega
    obtain ⟨hwf1, hmem⟩ :=
      calls_keep_key_pending c calls h hwf hlive hidle hshut hgot (Or.inr hfire)
    exact List.count_eq_one_of_mem hwf1.1 hmem
  · intro q item hs
    unfold workqueue.Queue.Add
    simp [hs]

/-- C9 amended, at a concrete input: another pod is pending and a third one is
being processed; 35 seconds of `requeuePeriodically` make three fires, and a
sequence with three fires among other calls is run as well. -/
theorem heartbeat_fires_leave_one_pending_witness :
    (1 ≤ 3 ∧
      (workqueue.Queue.mk ["db/demo-1"] ["db/demo-2"] [] false).WellFormed ∧
      (workqueue.Queue.mk ["db/demo-1"] ["db/demo-2"] [] false).shutDown = false ∧
      (sampleController.namespace_ ++ "/" ++ sampleController.podName) ∉
        (workqueue.Queue.mk ["db/demo-1"] ["db/demo-2"] [] false).processing) ∧
    (sampleController.requeuePeriodically none false 0 35
      { podQueue := workqueue.Queue.mk ["db/demo-1"] ["db/demo-2"] [] false,
        log := [] }).1.podQueue.pending.count
        (sampleController.namespace_ ++ "/" ++ sampleController.podName) = 1 ∧
    (sampleController.requeuePeriodically none false 0 35
      { podQueue := workqueue.Queue.mk ["db/demo-1"] ["db/demo-2"] [] false,
        log := [] }).1.podQueue.pending = ["db/demo-1", "db/demo-0"] ∧
    (sampleController.calls
      [QueueCall.heartbeat, QueueCall.get, QueueCall.add "db/demo-2", QueueCall.heartbeat,
        QueueCall.done "db/demo-2", QueueCall.done "db/demo-1", QueueCall.heartbeat]
      { podQueue := workqueue.Queue.mk ["db/demo-1"] ["db/demo-2"] [] false,
        log := [] }).1.podQueue.pending = ["db/demo-0", "db/demo-2"] :=
  ⟨⟨by decide, by decide, rfl, by decide⟩,
   ((heartbeat_fires_leave_one_pending sampleController
      { podQueue := workqueue.Queue.mk ["db/demo-1"] ["db/demo-2"] [] false, log := [] } 3
      (by decide) (by decide) rfl (by decide)).1 none false 0 35 (by decide)).1,
   by decide, by decide⟩

end ReplicationModeDetector
